import Mathlib

/-!
Shallow embedding of the tiling-window-manager core (miracle-wm excerpt):
`LeafNode` (src/leaf_node.cpp) together with the host capability interface
it calls (`TilingInterface`), and the parts of `OutputContent`
(src/output_content.cpp) that the verified claims are about.

Geometry follows mir::geometry: integer-valued points and sizes; a
rectangle is a top-left point plus a size.
-/

namespace Miracle

/-- A mir::geometry::Rectangle: integer top-left point and integer size. -/
structure Rect where
  x : Int
  y : Int
  width : Int
  height : Int
deriving DecidableEq, Repr

/-- Interval containment of rectangles: `inner` lies inside `outer`
(mir rectangles are half-open boxes `[x, x+width) × [y, y+height)`). -/
def Rect.containsRect (outer inner : Rect) : Prop :=
  outer.x ≤ inner.x ∧ inner.x + inner.width ≤ outer.x + outer.width ∧
  outer.y ≤ inner.y ∧ inner.y + inner.height ≤ outer.y + outer.height

instance (outer inner : Rect) : Decidable (Rect.containsRect outer inner) := by
  unfold Rect.containsRect; infer_instance

/-- mir::geometry::Rectangle::contains(Point): half-open box membership. -/
def Rect.containsPoint (r : Rect) (px py : Int) : Bool :=
  decide (r.x ≤ px) && decide (px < r.x + r.width) &&
  decide (r.y ≤ py) && decide (py < r.y + r.height)

/-- The MirWindowState values this excerpt manipulates
(mir_toolkit/common.h). -/
inductive WindowState where
  | unknown
  | restored
  | minimized
  | maximized
  | vertmaximized
  | fullscreen
  | horizmaximized
  | hidden
  | attached
deriving DecidableEq, Repr

/-- `(int)(ceil((double)g / 2.0))` from LeafNode::get_visible_area.
For an integer `g`, `ceil(g / 2) = floor((g + 1) / 2)`, and Int `/` is
Euclidean division, which floors for the positive divisor 2. -/
def half_gap (g : Int) : Int := (g + 1) / 2

/-- The four directions of the Direction enum, as reported by
`get_neighbors()`: for each direction, whether an adjacent sibling
exists. `get_neighbors()` itself is tree code outside this excerpt, so a
leaf's neighbor report is a parameter of the model. -/
structure Neighbors where
  left : Bool
  right : Bool
  up : Bool
  down : Bool
deriving DecidableEq, Repr

/-- An effectful call made by the leaf on the host `TilingInterface`
(queries such as `get_state` are not recorded). -/
inductive HostCall where
  | change_state (s : WindowState)
  | clip (r : Rect)
  | noclip
  | set_rectangle (prev next : Rect)
deriving DecidableEq, Repr

/-- The host compositor as seen through `TilingInterface` for the single
window of one leaf: the window's committed state plus the trace of
effectful calls received (oldest first). -/
structure Host where
  state : WindowState
  calls : List HostCall
deriving DecidableEq, Repr

/-- `TilingInterface::get_state(window)`. -/
def Host.get_state (h : Host) : WindowState := h.state

/-- Modelled from the spec: `TilingInterface::is_fullscreen(window)` is
host-provided code outside this excerpt; the spec says a window is
fullscreen iff its committed state equals the fullscreen state, which
this codebase takes to be `mir_window_state_maximized` (the state
`toggle_fullscreen` stages to enter fullscreen and `is_fullscreen`
tests, leaf_node.cpp lines 130 and 135). -/
def Host.is_fullscreen (h : Host) : Bool := h.state == WindowState.maximized

/-- `TilingInterface::change_state(window, state)`. -/
def Host.change_state (h : Host) (s : WindowState) : Host :=
  { state := s, calls := h.calls ++ [HostCall.change_state s] }

/-- `TilingInterface::clip(window, rect)`. -/
def Host.clip (h : Host) (r : Rect) : Host :=
  { h with calls := h.calls ++ [HostCall.clip r] }

/-- `TilingInterface::noclip(window)`. -/
def Host.noclip (h : Host) : Host :=
  { h with calls := h.calls ++ [HostCall.noclip] }

/-- `TilingInterface::set_rectangle(window, previous, next)`. -/
def Host.set_rectangle (h : Host) (prev next : Rect) : Host :=
  { h with calls := h.calls ++ [HostCall.set_rectangle prev next] }

/-- The mutable fields of LeafNode that the claims concern: the committed
logical area, the pending logical area, the pending window state, and
the snapshot taken by `hide()`. -/
structure LeafNode where
  logical_area : Rect
  next_logical_area : Option Rect := none
  next_state : Option WindowState := none
  before_shown_state : Option WindowState := none
deriving DecidableEq, Repr

/-- LeafNode::get_logical_area (leaf_node.cpp:45-48):
`next_logical_area ? next_logical_area.value() : logical_area`. -/
def LeafNode.get_logical_area (l : LeafNode) : Rect :=
  match l.next_logical_area with
  | some r => r
  | none => l.logical_area

/-- LeafNode::set_logical_area (leaf_node.cpp:50-53):
`next_logical_area = target_rect`. -/
def LeafNode.set_logical_area (l : LeafNode) (target_rect : Rect) : LeafNode :=
  { l with next_logical_area := some target_rect }

/-- LeafNode::get_visible_area (leaf_node.cpp:60-93). The gap values are
`config->get_inner_gaps_x()/y()`; the neighbor report comes from
`get_neighbors()`. Both are parameters of the leaf's environment. -/
def LeafNode.get_visible_area (gx gy : Int) (n : Neighbors) (l : LeafNode) : Rect :=
  let half_gap_x := half_gap gx
  let half_gap_y := half_gap gy
  let x0 := l.logical_area.x
  let y0 := l.logical_area.y
  let w0 := l.logical_area.width
  let h0 := l.logical_area.height
  let x1 := if n.left then x0 + half_gap_x else x0
  let w1 := if n.left then w0 - half_gap_x else w0
  let w2 := if n.right then w1 - half_gap_x else w1
  let y1 := if n.up then y0 + half_gap_y else y0
  let h1 := if n.up then h0 - half_gap_y else h0
  let h2 := if n.down then h1 - half_gap_y else h1
  { x := x1, y := y1, width := w2, height := h2 }

/-- LeafNode::constrain (leaf_node.cpp:95-101). -/
def LeafNode.constrain (gx gy : Int) (n : Neighbors) (l : LeafNode) (h : Host) : Host :=
  if h.is_fullscreen then h.noclip
  else h.clip (l.get_visible_area gx gy n)

/-- LeafNode::show (leaf_node.cpp:113-117):
`next_state = before_shown_state; before_shown_state.reset()`. -/
def LeafNode.show (l : LeafNode) : LeafNode :=
  { l with next_state := l.before_shown_state, before_shown_state := none }

/-- LeafNode::hide (leaf_node.cpp:119-123):
`before_shown_state = get_state(window); next_state = hidden`. -/
def LeafNode.hide (l : LeafNode) (h : Host) : LeafNode :=
  { l with before_shown_state := some h.get_state,
           next_state := some WindowState.hidden }

/-- LeafNode::toggle_fullscreen (leaf_node.cpp:125-131). -/
def LeafNode.toggle_fullscreen (l : LeafNode) (h : Host) : LeafNode :=
  if h.is_fullscreen then { l with next_state := some WindowState.restored }
  else { l with next_state := some WindowState.maximized }

/-- LeafNode::is_fullscreen (leaf_node.cpp:133-136):
`get_state(window) == mir_window_state_maximized`. -/
def LeafNode.is_fullscreen (_l : LeafNode) (h : Host) : Bool :=
  h.get_state == WindowState.maximized

/-- The state this codebase uses to represent fullscreen: the state
`toggle_fullscreen` stages when entering fullscreen (leaf_node.cpp:130). -/
def fullscreen_state : WindowState := WindowState.maximized

/-- A workspace held by OutputContent, reduced to what
`get_active_workspace` inspects: its integer key (`get_workspace()`),
plus a tag distinguishing distinct WorkspaceContent objects. -/
structure WorkspaceContent where
  workspace : Int
  tag : Nat
deriving DecidableEq, Repr

/-- The message of the `std::runtime_error` thrown by
OutputContent::get_active_workspace (output_content.cpp:70), with its
final interjection paraphrased. -/
def workspace_not_found_message : String :=
  "get_active_workspace: unable to find the active workspace."

/-- OutputContent::get_active_workspace (output_content.cpp:62-72): scan
the workspace list for the first entry whose key equals the active
workspace key; throw a runtime error when none matches. -/
def OutputContent.get_active_workspace :
    List WorkspaceContent → Int → Except String WorkspaceContent
  | [], _ => Except.error workspace_not_found_message
  | w :: rest, active =>
    if w.workspace == active then Except.ok w
    else OutputContent.get_active_workspace rest active

/-- A miral::Window as `select_window_from_point` sees it: an identity
plus its current on-screen rectangle (`top_left()`/`size()`). -/
structure Window where
  id : Nat
  rect : Rect
deriving DecidableEq, Repr

/-- The floating-window loop of OutputContent::select_window_from_point
(output_content.cpp:367-377): walk the floating list in order keeping
the index of the last window containing the point; return early — with
no selection — when the active window itself contains the point. The
outer `none` models the early `return`; `some idx` models falling out
of the loop with `floating_index` pointing at the window `idx`. -/
def floating_scan (active : Window) (x y : Int) :
    Option Window → List Window → Option (Option Window)
  | idx, [] => some idx
  | idx, w :: rest =>
    if w == active && w.rect.containsPoint x y then none
    else if w.rect.containsPoint x y then floating_scan active x y (some w) rest
    else floating_scan active x y idx rest

/-- OutputContent::select_window_from_point (output_content.cpp:360-390).
The tiling tree is outside this excerpt, so its
`select_window_from_point` is the parameter `tree_select`, returning
the window of the matched leaf, if any. The result is the window passed
to `tools.select_active_window`, or `none` when no selection is made. -/
def OutputContent.select_window_from_point
    (has_fullscreen : Bool) (floating : List Window) (active_window : Window)
    (tree_select : Int → Int → Option Window) (x y : Int) : Option Window :=
  if has_fullscreen then none
  else
    match floating_scan active_window x y none floating with
    | none => none
    | some (some w) => some w
    | some none =>
      match tree_select x y with
      | some node_window =>
        if node_window != active_window then some node_window else none
      | none => none

/-- The WindowType enum values dispatched on by OutputContent. -/
inductive WindowType where
  | tiled
  | floating
  | other
deriving DecidableEq, Repr

/-- OutputContent::confirm_placement_on_display (output_content.cpp:336-358).
The tiling tree and the floating window manager are outside this
excerpt; `tree_confirm` gives the rectangle the tree writes into the
local `modified_placement` copy, and `floating_confirm` the rectangle
the floating manager returns. -/
def OutputContent.confirm_placement_on_display
    (wt : WindowType)
    (tree_confirm : WindowState → Rect → Rect)
    (floating_confirm : WindowState → Rect → Rect)
    (new_state : WindowState) (new_placement : Rect) : Rect :=
  match wt with
  | WindowType.tiled =>
    let _modified_placement := tree_confirm new_state new_placement
    new_placement
  | WindowType.floating => floating_confirm new_state new_placement
  | WindowType.other => new_placement

/-- LeafNode::commit_changes (leaf_node.cpp:138-158). -/
def LeafNode.commit_changes (gx gy : Int) (n : Neighbors) (l : LeafNode) (h : Host) :
    LeafNode × Host :=
  let step1 : LeafNode × Host :=
    match l.next_state with
    | some st =>
      let h1 := h.change_state st
      let h2 := LeafNode.constrain gx gy n l h1
      ({ l with next_state := none }, h2)
    | none => (l, h)
  let l1 := step1.1
  let h1 := step1.2
  match l1.next_logical_area with
  | some r =>
    let previous := l1.get_visible_area gx gy n
    let l2 : LeafNode := { l1 with logical_area := r, next_logical_area := none }
    if h1.is_fullscreen then (l2, h1)
    else
      let h2 := h1.set_rectangle previous (l2.get_visible_area gx gy n)
      let h3 := LeafNode.constrain gx gy n l2 h2
      (l2, h3)
  | none => (l1, h1)

end Miracle

namespace Miracle

/-- C1: for every leaf, the visible area is contained in the logical area
(for nonnegative gaps); each of the four sides moves inward by exactly
`ceil(gap/2)` when `get_neighbors()` reports a neighbor on that side and
is untouched otherwise, so the total width (resp. height) lost is the
sum of `ceil(gap/2)` over exactly the neighbored horizontal (resp.
vertical) sides; and `half_gap` is indeed `ceil(gap/2)`. -/
theorem get_visible_area_shrinks_neighbor_sides
    (la : Rect) (gx gy : Int) (n : Neighbors) (hgx : 0 ≤ gx) (hgy : 0 ≤ gy) :
    Rect.containsRect la (LeafNode.get_visible_area gx gy n { logical_area := la }) ∧
    (LeafNode.get_visible_area gx gy n { logical_area := la }).x
      = la.x + (if n.left then half_gap gx else 0) ∧
    (LeafNode.get_visible_area gx gy n { logical_area := la }).y
      = la.y + (if n.up then half_gap gy else 0) ∧
    la.width - (LeafNode.get_visible_area gx gy n { logical_area := la }).width
      = (if n.left then half_gap gx else 0) + (if n.right then half_gap gx else 0) ∧
    la.height - (LeafNode.get_visible_area gx gy n { logical_area := la }).height
      = (if n.up then half_gap gy else 0) + (if n.down then half_gap gy else 0) ∧
    (gx ≤ 2 * half_gap gx ∧ 2 * half_gap gx < gx + 2) ∧
    (gy ≤ 2 * half_gap gy ∧ 2 * half_gap gy < gy + 2) := by
  have hx : 0 ≤ half_gap gx := by unfold half_gap; omega
  have hy : 0 ≤ half_gap gy := by unfold half_gap; omega
  unfold LeafNode.get_visible_area Rect.containsRect half_gap
  cases n.left <;> cases n.right <;> cases n.up <;> cases n.down <;>
    simp_all <;> unfold half_gap at hx hy <;> omega

/-- Witness for C1 at a concrete leaf: logical area 100×80 at (5,7),
gaps 9/4, neighbors on the left and below. -/
theorem get_visible_area_shrinks_neighbor_sides_witness :
    Rect.containsRect { x := 5, y := 7, width := 100, height := 80 }
      (LeafNode.get_visible_area 9 4
        { left := true, right := false, up := false, down := true }
        { logical_area := { x := 5, y := 7, width := 100, height := 80 } }) ∧
    (LeafNode.get_visible_area 9 4
        { left := true, right := false, up := false, down := true }
        { logical_area := { x := 5, y := 7, width := 100, height := 80 } }).x
      = 5 + (if true then half_gap 9 else 0) := by
  have h := get_visible_area_shrinks_neighbor_sides
    { x := 5, y := 7, width := 100, height := 80 } 9 4
    { left := true, right := false, up := false, down := true }
    (by decide) (by decide)
  exact ⟨h.1, h.2.1⟩

/-- C5: gaps 10/10, output 1920×1080 split into two side-by-side leaves of
logical size 960×1080: the left leaf (right neighbor only) has visible
area 955×1080 at (0,0); the right leaf (left neighbor only) has visible
area 955×1080 at (965,0). -/
theorem two_leaf_scenario_visible_areas :
    LeafNode.get_visible_area 10 10
      { left := false, right := true, up := false, down := false }
      { logical_area := { x := 0, y := 0, width := 960, height := 1080 } }
      = { x := 0, y := 0, width := 955, height := 1080 } ∧
    LeafNode.get_visible_area 10 10
      { left := true, right := false, up := false, down := false }
      { logical_area := { x := 960, y := 0, width := 960, height := 1080 } }
      = { x := 965, y := 0, width := 955, height := 1080 } := by
  constructor <;> rfl

/-- C3: `get_logical_area` reads the pending area when one is staged and
the committed area otherwise, and `set_logical_area` only stages: the
committed `logical_area` field — and every other field — is unchanged
until `commit_changes` runs. -/
theorem logical_area_read_and_staging
    (l : LeafNode) (r : Rect) :
    (∀ p, l.next_logical_area = some p → l.get_logical_area = p) ∧
    (l.next_logical_area = none → l.get_logical_area = l.logical_area) ∧
    (l.set_logical_area r).next_logical_area = some r ∧
    (l.set_logical_area r).logical_area = l.logical_area ∧
    (l.set_logical_area r).next_state = l.next_state ∧
    (l.set_logical_area r).before_shown_state = l.before_shown_state := by
  refine ⟨?_, ?_, rfl, rfl, rfl, rfl⟩
  · intro p hp; simp [LeafNode.get_logical_area, hp]
  · intro hp; simp [LeafNode.get_logical_area, hp]

/-- Witness for C3 at a concrete leaf with a staged pending area. -/
theorem logical_area_read_and_staging_witness :
    LeafNode.get_logical_area
      { logical_area := { x := 0, y := 0, width := 10, height := 10 },
        next_logical_area := some { x := 1, y := 2, width := 3, height := 4 } }
      = { x := 1, y := 2, width := 3, height := 4 } :=
  (logical_area_read_and_staging
    { logical_area := { x := 0, y := 0, width := 10, height := 10 },
      next_logical_area := some { x := 1, y := 2, width := 3, height := 4 } }
    { x := 9, y := 9, width := 9, height := 9 }).1
    { x := 1, y := 2, width := 3, height := 4 } rfl

/-- C6: `LeafNode::is_fullscreen()` holds exactly when the window's
committed state, as reported by the host's `get_state`, equals the state
this codebase uses for fullscreen. -/
theorem is_fullscreen_iff_state_is_fullscreen_state
    (l : LeafNode) (h : Host) :
    l.is_fullscreen h = (h.get_state == fullscreen_state) := rfl

/-- C2: `commit_changes` performs its two steps in order, each only when
the corresponding pending value is present. Step 1 emits
`change_state(pending state)` then the `constrain()` call (a `noclip`
when the just-applied state is the fullscreen state, else a `clip` to
the visible area). Step 2 replaces the committed logical area with the
pending one and, only when the window is not fullscreen afterwards,
emits `set_rectangle(previous visible area, new visible area)` followed
by `constrain()`. Both pending fields end cleared, the hide snapshot is
untouched, and the committed window state is the staged one when one
was staged. -/
theorem commit_changes_two_ordered_steps
    (gx gy : Int) (n : Neighbors) (l : LeafNode) (h : Host) :
    (LeafNode.commit_changes gx gy n l h).1.next_state = none ∧
    (LeafNode.commit_changes gx gy n l h).1.next_logical_area = none ∧
    (LeafNode.commit_changes gx gy n l h).1.logical_area
      = (match l.next_logical_area with
         | some r => r
         | none => l.logical_area) ∧
    (LeafNode.commit_changes gx gy n l h).1.before_shown_state
      = l.before_shown_state ∧
    (LeafNode.commit_changes gx gy n l h).2.state
      = (match l.next_state with
         | some st => st
         | none => h.state) ∧
    (LeafNode.commit_changes gx gy n l h).2.calls
      = h.calls
        ++ (match l.next_state with
            | some st =>
              HostCall.change_state st ::
                (if st == fullscreen_state then [HostCall.noclip]
                 else [HostCall.clip (l.get_visible_area gx gy n)])
            | none => [])
        ++ (match l.next_logical_area with
            | some r =>
              if (match l.next_state with
                  | some st => st
                  | none => h.state) == fullscreen_state then []
              else
                [HostCall.set_rectangle
                   (l.get_visible_area gx gy n)
                   (LeafNode.get_visible_area gx gy n { l with logical_area := r }),
                 HostCall.clip
                   (LeafNode.get_visible_area gx gy n { l with logical_area := r })]
            | none => []) := by
  cases hns : l.next_state <;> cases hnl : l.next_logical_area <;>
    simp only [LeafNode.commit_changes, LeafNode.constrain, Host.change_state,
      Host.is_fullscreen, Host.clip, Host.noclip, Host.set_rectangle,
      LeafNode.get_visible_area, fullscreen_state, hns, hnl] <;>
    (try split) <;>
    simp_all [Host.is_fullscreen, List.append_assoc]

/-- C7: when no window state and no logical area are pending,
`commit_changes` changes nothing: no host call is made and the leaf is
returned as-is; consequently a second commit right after any commit has
no further effect. -/
theorem commit_changes_noop_when_nothing_pending
    (gx gy : Int) (n : Neighbors) (l : LeafNode) (h : Host) :
    (l.next_state = none → l.next_logical_area = none →
      LeafNode.commit_changes gx gy n l h = (l, h)) ∧
    LeafNode.commit_changes gx gy n
        (LeafNode.commit_changes gx gy n l h).1
        (LeafNode.commit_changes gx gy n l h).2
      = LeafNode.commit_changes gx gy n l h := by
  have clears : ∀ (l0 : LeafNode) (h0 : Host),
      (LeafNode.commit_changes gx gy n l0 h0).1.next_state = none ∧
      (LeafNode.commit_changes gx gy n l0 h0).1.next_logical_area = none := by
    intro l0 h0
    cases hns : l0.next_state <;> cases hnl : l0.next_logical_area <;>
      simp only [LeafNode.commit_changes, hns, hnl] <;> (try split) <;> simp
  have noop : ∀ (l0 : LeafNode) (h0 : Host),
      l0.next_state = none → l0.next_logical_area = none →
      LeafNode.commit_changes gx gy n l0 h0 = (l0, h0) := by
    intro l0 h0 hns hnl
    simp only [LeafNode.commit_changes, hns, hnl]
  refine ⟨noop l h, ?_⟩
  exact noop _ _ (clears l h).1 (clears l h).2

/-- Witness for C7: committing a leaf with nothing pending returns it and
the host unchanged. -/
theorem commit_changes_noop_when_nothing_pending_witness :
    LeafNode.commit_changes 10 10
      { left := true, right := false, up := false, down := false }
      { logical_area := { x := 0, y := 0, width := 100, height := 100 } }
      { state := WindowState.restored, calls := [] }
      = ({ logical_area := { x := 0, y := 0, width := 100, height := 100 } },
         { state := WindowState.restored, calls := [] }) :=
  (commit_changes_noop_when_nothing_pending 10 10
    { left := true, right := false, up := false, down := false }
    { logical_area := { x := 0, y := 0, width := 100, height := 100 } }
    { state := WindowState.restored, calls := [] }).1 rfl rfl

/-- C4: `hide()` snapshots the host-reported window state and stages the
hidden state; `show()` stages exactly the snapshot and clears it. Hence
hide-commit-show-commit returns the host window state to its original
value; a second `hide()` after hide-commit snapshots the now-hidden
state; and on a leaf that was never hidden, `show()` followed by a
commit leaves the host window state exactly as it was. -/
theorem hide_show_snapshot_round_trip
    (gx gy : Int) (n : Neighbors) (l : LeafNode) (h : Host) :
    LeafNode.hide l h
      = { l with before_shown_state := some h.get_state,
                 next_state := some WindowState.hidden } ∧
    LeafNode.show l
      = { l with next_state := l.before_shown_state,
                 before_shown_state := none } ∧
    (LeafNode.commit_changes gx gy n
        (LeafNode.show (LeafNode.commit_changes gx gy n (LeafNode.hide l h) h).1)
        (LeafNode.commit_changes gx gy n (LeafNode.hide l h) h).2).2.state
      = h.state ∧
    (LeafNode.hide
        (LeafNode.commit_changes gx gy n (LeafNode.hide l h) h).1
        (LeafNode.commit_changes gx gy n (LeafNode.hide l h) h).2).before_shown_state
      = some WindowState.hidden ∧
    (l.before_shown_state = none →
      (LeafNode.commit_changes gx gy n (LeafNode.show l) h).2.state = h.state) := by
  refine ⟨rfl, rfl, ?_, ?_, ?_⟩
  · cases hnl : l.next_logical_area <;>
      simp [LeafNode.hide, LeafNode.show, LeafNode.commit_changes,
        LeafNode.constrain, Host.change_state, Host.is_fullscreen, Host.clip,
        Host.noclip, Host.set_rectangle, Host.get_state, hnl] <;>
      (try split) <;> rfl
  · cases hnl : l.next_logical_area <;>
      simp [LeafNode.hide, LeafNode.commit_changes, LeafNode.constrain,
        Host.change_state, Host.is_fullscreen, Host.clip, Host.noclip,
        Host.set_rectangle, Host.get_state, hnl]
  · intro hb
    cases hnl : l.next_logical_area <;>
      simp [LeafNode.show, LeafNode.commit_changes, LeafNode.constrain,
        Host.change_state, Host.is_fullscreen, Host.clip, Host.noclip,
        Host.set_rectangle, Host.get_state, hb, hnl] <;>
      (try split) <;> simp

/-- Witness for C4: a never-hidden leaf keeps its host window state across
show-then-commit. -/
theorem hide_show_snapshot_round_trip_witness :
    (LeafNode.commit_changes 10 10
      { left := false, right := false, up := false, down := false }
      (LeafNode.show
        { logical_area := { x := 0, y := 0, width := 100, height := 100 } })
      { state := WindowState.restored, calls := [] }).2.state
      = WindowState.restored :=
  (hide_show_snapshot_round_trip 10 10
    { left := false, right := false, up := false, down := false }
    { logical_area := { x := 0, y := 0, width := 100, height := 100 } }
    { state := WindowState.restored, calls := [] }).2.2.2.2 rfl

/-- C8: when no workspace in the list carries the active key,
`get_active_workspace` raises the runtime error — it never returns a
null or default workspace; and any workspace it does return is a member
of the list whose key is the active key (moreover one exists whenever a
matching workspace exists). -/
theorem get_active_workspace_error_or_match
    (ws : List WorkspaceContent) (active : Int) :
    ((∀ w ∈ ws, w.workspace ≠ active) →
      OutputContent.get_active_workspace ws active
        = Except.error workspace_not_found_message) ∧
    ((∃ w ∈ ws, w.workspace = active) →
      ∃ w, OutputContent.get_active_workspace ws active = Except.ok w ∧
        w ∈ ws ∧ w.workspace = active) ∧
    (∀ w, OutputContent.get_active_workspace ws active = Except.ok w →
      w ∈ ws ∧ w.workspace = active) := by
  induction ws with
  | nil =>
    refine ⟨fun _ => rfl, ?_, ?_⟩
    · rintro ⟨w, hw, -⟩; exact absurd hw (List.not_mem_nil w)
    · intro w hw; exact absurd hw (by simp [OutputContent.get_active_workspace])
  | cons head tail ih =>
    by_cases hw : head.workspace = active
    · refine ⟨?_, ?_, ?_⟩
      · intro hall; exact absurd hw (hall head (List.mem_cons_self head tail))
      · intro _
        exact ⟨head, by simp [OutputContent.get_active_workspace, hw],
          List.mem_cons_self head tail, hw⟩
      · intro w hok
        simp only [OutputContent.get_active_workspace, beq_iff_eq, hw,
          if_true, Except.ok.injEq] at hok
        exact hok ▸ ⟨List.mem_cons_self head tail, hw⟩
    · have step : OutputContent.get_active_workspace (head :: tail) active
          = OutputContent.get_active_workspace tail active := by
        simp [OutputContent.get_active_workspace, hw]
      refine ⟨?_, ?_, ?_⟩
      · intro hall
        rw [step]
        exact ih.1 (fun w hmem => hall w (List.mem_cons_of_mem head hmem))
      · rintro ⟨w, hmem, hkey⟩
        rcases List.mem_cons.mp hmem with hhead | htail
        · exact absurd (hhead ▸ hkey) hw
        · obtain ⟨w2, hok, hmem2, hkey2⟩ := ih.2.1 ⟨w, htail, hkey⟩
          exact ⟨w2, step ▸ hok, List.mem_cons_of_mem head hmem2, hkey2⟩
      · intro w hok
        rw [step] at hok
        obtain ⟨hmem, hkey⟩ := ih.2.2 w hok
        exact ⟨List.mem_cons_of_mem head hmem, hkey⟩

/-- Witness for C8: a two-workspace list without the active key yields the
error, and with the key yields the matching workspace. -/
theorem get_active_workspace_error_or_match_witness :
    OutputContent.get_active_workspace
      [{ workspace := 1, tag := 0 }, { workspace := 2, tag := 1 }] 3
      = Except.error workspace_not_found_message :=
  (get_active_workspace_error_or_match
    [{ workspace := 1, tag := 0 }, { workspace := 2, tag := 1 }] 3).1
    (by decide)

/-- Helper: once `floating_index` is set (accumulator `some w0`), the scan
can no longer end with no containing window recorded. -/
theorem floating_scan_acc_set (active : Window) (x y : Int) (w0 : Window) :
    ∀ fl : List Window, floating_scan active x y (some w0) fl ≠ some none := by
  intro fl
  induction fl generalizing w0 with
  | nil => simp [floating_scan]
  | cons w rest ih =>
    simp only [floating_scan]
    split
    · simp
    · split
      · exact ih w
      · exact ih w0

/-- Helper: when some floating window contains the point, the scan never
ends with no containing window recorded. -/
theorem floating_scan_contains_not_empty (active : Window) (x y : Int) :
    ∀ (fl : List Window) (acc : Option Window),
      (∃ w ∈ fl, w.rect.containsPoint x y = true) →
      floating_scan active x y acc fl ≠ some none := by
  intro fl
  induction fl with
  | nil => rintro acc ⟨w, hmem, -⟩; exact absurd hmem (List.not_mem_nil w)
  | cons w rest ih =>
    rintro acc ⟨w2, hmem, hc⟩
    simp only [floating_scan]
    split
    · simp
    · split
      · exact floating_scan_acc_set active x y w rest
      · rcases List.mem_cons.mp hmem with hhead | htail
        · subst hhead; simp_all
        · exact ih acc ⟨w2, htail, hc⟩

/-- Helper: whatever the scan records as `floating_index` is a floating
window containing the point, unless it was already the accumulator. -/
theorem floating_scan_records_containing (active : Window) (x y : Int) :
    ∀ (fl : List Window) (acc : Option Window) (w : Window),
      floating_scan active x y acc fl = some (some w) →
      acc = some w ∨ (w ∈ fl ∧ w.rect.containsPoint x y = true) := by
  intro fl
  induction fl with
  | nil => intro acc w hscan; simp_all [floating_scan]
  | cons w2 rest ih =>
    intro acc w hscan
    simp only [floating_scan] at hscan
    rcases hsplit : (w2 == active && w2.rect.containsPoint x y) with _ | _
    · rw [hsplit] at hscan
      simp only [Bool.false_eq_true, if_false] at hscan
      rcases hc : w2.rect.containsPoint x y with _ | _
      · rw [hc] at hscan
        simp only [Bool.false_eq_true, if_false] at hscan
        rcases ih acc w hscan with hacc | ⟨hmem, hcw⟩
        · exact Or.inl hacc
        · exact Or.inr ⟨List.mem_cons_of_mem w2 hmem, hcw⟩
      · rw [hc] at hscan
        simp only [if_true] at hscan
        rcases ih (some w2) w hscan with hacc | ⟨hmem, hcw⟩
        · refine Or.inr ⟨?_, ?_⟩
          · exact (Option.some.injEq w2 w ▸ hacc : w2 = w) ▸ List.mem_cons_self w2 rest
          · have hw2 : w2 = w := by simpa using hacc
            exact hw2 ▸ hc
        · exact Or.inr ⟨List.mem_cons_of_mem w2 hmem, hcw⟩
    · rw [hsplit] at hscan
      simp at hscan

/-- Helper: when the active window is in the floating list and contains
the point, the scan returns early with no selection. -/
theorem floating_scan_active_hit (active : Window) (x y : Int)
    (hc : active.rect.containsPoint x y = true) :
    ∀ (fl : List Window) (acc : Option Window), active ∈ fl →
      floating_scan active x y acc fl = none := by
  intro fl
  induction fl with
  | nil => intro acc hmem; exact absurd hmem (List.not_mem_nil active)
  | cons w rest ih =>
    intro acc hmem
    rcases List.mem_cons.mp hmem with hhead | htail
    · subst hhead; simp [floating_scan, hc]
    · simp only [floating_scan]
      split
      · rfl
      · split
        · exact ih (some w) htail
        · exact ih acc htail

/-- C9: `select_window_from_point` makes no selection when the active
tree has a fullscreen window; when any floating window contains the
point, the result is independent of the tiling tree (the tree is not
consulted) and any selected window is a floating window containing the
point; and when the point lies inside the already-active floating
window, no selection is made at all. -/
theorem select_window_from_point_priority
    (floating : List Window) (active : Window)
    (ts ts2 : Int → Int → Option Window) (x y : Int) :
    OutputContent.select_window_from_point true floating active ts x y = none ∧
    ((∃ w ∈ floating, w.rect.containsPoint x y = true) →
      OutputContent.select_window_from_point false floating active ts x y
        = OutputContent.select_window_from_point false floating active ts2 x y ∧
      (∀ w, OutputContent.select_window_from_point false floating active ts x y
          = some w →
        w ∈ floating ∧ w.rect.containsPoint x y = true)) ∧
    (active ∈ floating → active.rect.containsPoint x y = true →
      OutputContent.select_window_from_point false floating active ts x y
        = none) := by
  refine ⟨rfl, ?_, ?_⟩
  · intro hex
    have hne := floating_scan_contains_not_empty active x y floating none hex
    constructor
    · simp only [OutputContent.select_window_from_point, Bool.false_eq_true,
        if_false]
      rcases hscan : floating_scan active x y none floating with _ | idx
      · rfl
      · rcases idx with _ | w
        · exact absurd hscan hne
        · rfl
    · intro w hw
      simp only [OutputContent.select_window_from_point, Bool.false_eq_true,
        if_false] at hw
      rcases hscan : floating_scan active x y none floating with _ | idx
      · rw [hscan] at hw; exact absurd hw (by simp)
      · rcases idx with _ | w2
        · exact absurd hscan hne
        · rw [hscan] at hw
          simp only [Option.some.injEq] at hw
          rcases floating_scan_records_containing active x y floating none w2
              hscan with hacc | hgood
          · exact absurd hacc (by simp)
          · exact hw ▸ hgood
  · intro hmem hc
    have hscan := floating_scan_active_hit active x y hc floating none hmem
    simp [OutputContent.select_window_from_point, hscan]

/-- Witness for C9: with one floating window at (0,0)-(100,100) containing
the point (5,5) and a tree that would select a different window, the
floating window wins regardless of the tree. -/
theorem select_window_from_point_priority_witness :
    OutputContent.select_window_from_point false
      [{ id := 1, rect := { x := 0, y := 0, width := 100, height := 100 } }]
      { id := 9, rect := { x := 500, y := 500, width := 10, height := 10 } }
      (fun _ _ =>
        some { id := 7, rect := { x := 0, y := 0, width := 50, height := 50 } })
      5 5
      = OutputContent.select_window_from_point false
        [{ id := 1, rect := { x := 0, y := 0, width := 100, height := 100 } }]
        { id := 9, rect := { x := 500, y := 500, width := 10, height := 10 } }
        (fun _ _ => none) 5 5 :=
  ((select_window_from_point_priority
    [{ id := 1, rect := { x := 0, y := 0, width := 100, height := 100 } }]
    { id := 9, rect := { x := 500, y := 500, width := 10, height := 10 } }
    (fun _ _ =>
      some { id := 7, rect := { x := 0, y := 0, width := 50, height := 50 } })
    (fun _ _ => none) 5 5).2.1
    ⟨{ id := 1, rect := { x := 0, y := 0, width := 100, height := 100 } },
      by decide, by decide⟩).1

/-- C10: for a tiled window `confirm_placement_on_display` returns
`new_placement` itself, whatever adjustment the tree computes into its
local copy — the adjustment never reaches the caller (the same holds in
the default case); only the floating path can return a different
rectangle, namely whatever the floating window manager produces. -/
theorem confirm_placement_tiled_returns_input
    (tree_confirm tree_confirm2 floating_confirm : WindowState → Rect → Rect)
    (s : WindowState) (p : Rect) :
    OutputContent.confirm_placement_on_display WindowType.tiled
      tree_confirm floating_confirm s p = p ∧
    OutputContent.confirm_placement_on_display WindowType.tiled
        tree_confirm floating_confirm s p
      = OutputContent.confirm_placement_on_display WindowType.tiled
        tree_confirm2 floating_confirm s p ∧
    OutputContent.confirm_placement_on_display WindowType.floating
      tree_confirm floating_confirm s p = floating_confirm s p ∧
    OutputContent.confirm_placement_on_display WindowType.other
      tree_confirm floating_confirm s p = p :=
  ⟨rfl, rfl, rfl, rfl⟩

end Miracle
